import Mathlib

/-!
# Shallow embedding of the Shrdlite interpretation/planning pipeline

This file embeds, in Lean 4, the parts of the Shrdlite course project
(TypeScript) that the verified claims are about:

* `Physics` (source: the physics module, the version whose
  `hasValidLocation` takes a fourth argument for the `between` relation):
  `FoundObject`, `hasValidLocation`, `isStackingAllowedByPhysics`,
  `isValidGoalLocation`, `hasSameAttributes`, `getMinimalDescription`.
* `Interpreter` (source: `Interpreter.ts`): candidate resolution,
  `generateAnyDNF`, `generateAllDNF` and the helper DNF builders,
  the clarification error generators, `interpretCommand`, `interpret`.
* `Planner` (source: `Planner.ts`): `WorldStateNode`,
  `getObjectFromWorldState`, `heuristic`, `isGoal`,
  `WorldStateGraph.outgoingEdges`, and the error policy of `plan`.

General modelling conventions:

* JavaScript `number` values used as stack coordinates are modelled as
  `Int` (they take the sentinel value `-1` in the source).
* JavaScript `null`/`undefined`-able strings are modelled as
  `Option String`; the JS string coercion of `null` (used when building
  description strings with `+`) is `jsStr`.
* JS dictionaries (`{ [s: string]: T }`) that are built up by insertion
  are modelled as association lists `List (String × T)` with first-match
  lookup; iteration over `Object.keys` is iteration over the list.
  The planner's `objects` dictionary, which is only read via total
  lookups on identifiers that exist, is modelled as a total function
  `String → ObjectDefinition`.
* Where the TypeScript would dereference `undefined`/`null` and crash
  (cases that are unreachable for formulas the program itself builds),
  the embedding returns a neutral value (`false`, `0`, `[]`);
  each such spot is marked with a comment.
-/

namespace Shrdlite

/-- JS string coercion used when the source concatenates a possibly-null
field into a description string (`null` prints as `"null"`). -/
def jsStr (s : Option String) : String :=
  match s with
  | some v => v
  | none => "null"

/-- `ObjectDefinition` from `World.ts`: `form` is always a string,
`size`/`color` may be `null` (e.g. for the floor sentinel). -/
structure ObjectDefinition where
  form : String
  size : Option String
  color : Option String
deriving DecidableEq, Repr

/-- `Physics.FoundObject`: the projection of one object of the world
used by the physics predicates.  Field order follows the constructor of
the TypeScript class: `(definition, held, stackId, stackLoc, floor)`. -/
structure FoundObject where
  definition : ObjectDefinition
  held : Bool
  stackId : Int
  stackLocation : Int
  floor : Bool
deriving DecidableEq, Repr

/-- `Physics.isStackingAllowedByPhysics(topC, bottomC)`, translated
clause by clause.  The source's two nested `if`s under
`topC.form == "box"` are flattened into two sequential guards. -/
def isStackingAllowedByPhysics (topC bottomC : ObjectDefinition) : Bool :=
  -- Balls must be in boxes or on the floor, otherwise they roll away.
  if topC.form == "ball" && !(bottomC.form == "box" || bottomC.form == "floor") then false
  -- Balls cannot support anything
  else if bottomC.form == "ball" then false
  -- Small objects cannot support large objects
  else if bottomC.size == some "small" && topC.size == some "large" then false
  -- Boxes cannot contain pyramids, planks or boxes of the same size
  else if bottomC.form == "box" && bottomC.size == topC.size &&
      (topC.form == "plank" || topC.form == "pyramid" || topC.form == "box") then false
  -- Small boxes cannot be supported by small bricks or pyramids
  else if topC.form == "box" && topC.size == some "small" &&
      (bottomC.form == "pyramid" || bottomC.form == "brick" || bottomC.size == some "small") then false
  -- Large boxes cannot be supported by large pyramids.
  else if topC.form == "box" && topC.size == some "large" &&
      bottomC.size == some "large" && bottomC.form == "pyramid" then false
  -- Rest is allowed
  else topC.form != "floor"

/-- `Physics.hasValidLocation(c1, relation, c2, c3)`.  `c2` and `c3` are
`Option`s because callers pass `undefined`/`null` there (`c3` for every
binary relation, `c2` for `holding` literals).  When `c2` is absent and
the relation is not `holding`, the TypeScript would fault on `c2.held`;
we return `false` there.  The source implements `beside` by two
recursive calls with `"leftof"`/`"rightof"` and an undefined `c3`; since
the held-object guard has already been passed at that point, those calls
reduce to the two stack-index comparisons, which we inline. -/
def hasValidLocation (c1 : FoundObject) (relation : String)
    (c2 c3 : Option FoundObject) : Bool :=
  match c2 with
  | none =>
    if relation == "holding" then c1.held
    else false  -- source would fault dereferencing c2
  | some b =>
    -- Held object can only satisfy holding relation
    if relation != "holding" &&
        (c1.held || b.held || (match c3 with | some c => c.held | none => false)) then
      false
    else
      match relation with
      | "leftof" => decide (c1.stackId < b.stackId)
      | "rightof" => decide (c1.stackId > b.stackId)
      | "between" =>
        match c3 with
        | some c =>
          decide (b.stackId < c1.stackId && c1.stackId < c.stackId) ||
          decide (c.stackId < c1.stackId && c1.stackId < b.stackId)
        | none => false  -- source would fault dereferencing c3
      | "inside" =>
        if b.definition.size == some "small" && c1.definition.size == some "large" then false
        else decide (c1.stackId = b.stackId) &&
          decide (c1.stackLocation - 1 = b.stackLocation) && b.definition.form == "box"
      | "ontop" =>
        if b.floor then decide (c1.stackLocation = 0)
        else decide (c1.stackId = b.stackId) &&
          decide (c1.stackLocation - 1 = b.stackLocation) &&
          isStackingAllowedByPhysics c1.definition b.definition
      | "under" =>
        decide (c1.stackId = b.stackId) && decide (c1.stackLocation < b.stackLocation)
      | "beside" =>
        decide (c1.stackId < b.stackId) || decide (c1.stackId > b.stackId)
      | "above" =>
        decide (c1.stackId = b.stackId) && decide (c1.stackLocation > b.stackLocation)
      | "holding" => c1.held
      | _ => false

/-- `Physics.isValidGoalLocation(c1, relation, c2, c3)`.  The identity
guards compare object values; in the source these are JS reference
comparisons, which coincide with value equality for the dictionaries the
program builds (each identifier maps to a distinct record).  A missing
`c2` would make the source fault on `c2.floor`; we return `false`. -/
def isValidGoalLocation (c1 : FoundObject) (relation : String)
    (c2opt c3opt : Option FoundObject) : Bool :=
  match c2opt with
  | none => false  -- source would fault dereferencing c2
  | some c2 =>
    -- Prevent usage of same object twice
    if c1 == c2 || c3opt == some c2 then false
    -- Prevent floor from being put on top of something
    else if c1.floor && relation != "under" then false
    else if c2.floor && relation != "above" && relation != "ontop" then false
    else
      match relation with
      | "rightof" | "leftof" | "beside" | "between" | "above" | "under" => true
      | "inside" =>
        if c2.definition.size == some "small" && c1.definition.size == some "large" then false
        else c2.definition.form == "box"
      | "ontop" => isStackingAllowedByPhysics c1.definition c2.definition
      | _ => false

/-- `Physics.getMinimalDescription(obj, objects)`: the `count += … ? 1 : 0`
loops of the source are expressed as lengths of filtered lists. -/
def getMinimalDescription (obj : ObjectDefinition)
    (objects : List (String × ObjectDefinition)) : String :=
  let allObjects := objects.map Prod.snd
  -- Try only form first
  let countForm := (allObjects.filter (fun o => obj.form == o.form)).length
  if countForm == 1 then
    obj.form
  else
    -- Then color
    let countColor := (allObjects.filter
      (fun o => obj.form == o.form && obj.color == o.color)).length
    if countColor == 1 then
      jsStr obj.color ++ " " ++ obj.form
    else
      -- Ok have to take full description
      jsStr obj.size ++ " " ++ jsStr obj.color ++ " " ++ obj.form

/-! ## Parser data model (`Parser.ts` type declarations, known from use)

`Object = {size?, color?, form} | {object, location}`;
`Location = {relation, entity, entity2?}` (`entity2` present for
`between`); `Entity = {quantifier, object}`;
`Command = {command, entity?, location?}`. -/

mutual

inductive PObject where
  | leaf (size : Option String) (color : Option String) (form : String)
  | nested (object : PObject) (location : PLocation)

inductive PLocation where
  | mk (relation : String) (entity : PEntity) (entity2 : Option PEntity)

inductive PEntity where
  | mk (quantifier : String) (object : PObject)

end

def PLocation.relation : PLocation → String
  | .mk r _ _ => r

def PLocation.entity : PLocation → PEntity
  | .mk _ e _ => e

def PLocation.entity2 : PLocation → Option PEntity
  | .mk _ _ e2 => e2

def PEntity.quantifier : PEntity → String
  | .mk q _ => q

def PEntity.object : PEntity → PObject
  | .mk _ o => o

/-- `Parser.Command`. -/
structure Command where
  command : String
  entity : Option PEntity
  location : Option PLocation

/-- `WorldState` from `World.ts` (fields known from use; the rendering
fields are omitted).  `objects` maps every identifier to its definition;
it is an insertion-ordered dictionary. -/
structure WorldState where
  stacks' : List (List String)
  holding : Option String
  arm : Int
  objects : List (String × ObjectDefinition)

/-! ## Interpreter (`Interpreter.ts`) -/

/-- `Interpreter.Literal`. -/
structure Literal where
  polarity : Bool
  relation : String
  args : List String
deriving DecidableEq, Repr

/-- `Interpreter.Conjunction`. -/
abbrev Conjunction := List Literal

/-- `Interpreter.DNFFormula`. -/
abbrev DNFFormula := List Conjunction

/-- `Interpreter.ObjectDict`, an insertion-ordered dictionary from
identifiers to `FoundObject`s. -/
abbrev ObjectDict := List (String × FoundObject)

/-- First-match dictionary lookup (`objects[name]`, `Option`-valued
because a missing key yields `undefined`). -/
def dictLookup (d : ObjectDict) (name : String) : Option FoundObject :=
  match d.find? (fun p => p.1 == name) with
  | some p => some p.2
  | none => none

/-- `Interpreter.Candidates` (recursive, hence an inductive). -/
inductive Candidates where
  | mk (main : List String) (relation : Option String)
      (nested : Option Candidates) (nested2 : Option Candidates)

def Candidates.main : Candidates → List String
  | .mk m _ _ _ => m

def Candidates.relation : Candidates → Option String
  | .mk _ r _ _ => r

def Candidates.nested : Candidates → Option Candidates
  | .mk _ _ n _ => n

def Candidates.nested2 : Candidates → Option Candidates
  | .mk _ _ _ n => n

/-- The `FoundObject` record the interpreter registers for the floor:
`new Physics.FoundObject({form:"floor", size:null, color:null}, false, -1, -1, true)`. -/
def floorFoundObject : FoundObject :=
  { definition := { form := "floor", size := none, color := none }
    held := false, stackId := -1, stackLocation := -1, floor := true }

/-- The stack scan of `Interpreter.filterExistingObjects`: the source
iterates all the stacks and (re)assigns the entry each time the name is
found, so the last containing stack wins. -/
def findObjectOnStacks (stacks' : List (List String)) (name : String) :
    Option (Nat × Nat) :=
  (stacks'.enum.foldl (fun acc p =>
    match p.2.indexOf? name with
    | some loc => some (p.1, loc)
    | none => acc) none)

/-- `Interpreter.filterExistingObjects(state)`: one entry per identifier
that is held or on a stack, plus the floor sentinel (registered last). -/
def filterExistingObjects (state : WorldState) : ObjectDict :=
  (state.objects.filterMap (fun p =>
    if state.holding == some p.1 then
      some (p.1, { definition := p.2, held := true, stackId := -1,
                   stackLocation := -1, floor := false })
    else
      match findObjectOnStacks state.stacks' p.1 with
      | some il =>
        some (p.1, { definition := p.2, held := false, stackId := (il.1 : Int),
                     stackLocation := (il.2 : Int), floor := false })
      | none => none))
  ++ [("floor", floorFoundObject)]

/-- `Physics.hasSameAttributes(currObject, other)`.  For a nested parse
object the property reads yield `undefined` in the source and the form
test fails, so the function returns `false`; we match that directly. -/
def hasSameAttributes (currObject : PObject) (other : ObjectDefinition) : Bool :=
  match currObject with
  | .leaf size color form =>
    (form == "anyform" || form == other.form) &&
    (size == none || size == other.size) &&
    (color == none || color == other.color)
  | .nested _ _ => false

/-- `Interpreter.filterCandidate(entity, objects)`.  The `between` arm of
the matching loop breaks only out of the inner `for`, so a name can be
pushed once per satisfiable first-goal candidate (possibly several
times); the binary arm breaks out of its single loop, pushing at most
once. -/
def filterCandidate (entity : PEntity) (objects : ObjectDict) : Candidates :=
  match entity with
  | .mk _ rootObject0 =>
    match rootObject0 with
    | .nested innerObject (.mk rel lentity lentity2) =>
      let relation := rel
      let nestedCandidates := filterCandidate lentity objects
      let nestedCandidates2 : Option Candidates :=
        if rel == "between" then
          match lentity2 with
          | some e2 => some (filterCandidate e2 objects)
          | none => none  -- source would fault calling filterCandidate(undefined)
        else none
      let rootObject := innerObject
      let objCandidates := objects.flatMap (fun p =>
        if hasSameAttributes rootObject p.2.definition then
          if relation == "between" then
            ((nestedCandidates.main.filter (fun nested =>
              ((nestedCandidates2.map Candidates.main).getD []).any (fun nested2 =>
                hasValidLocation p.2 "between"
                  (dictLookup objects nested) (dictLookup objects nested2)))).map
              (fun _ => p.1))
          else
            if nestedCandidates.main.any (fun nested =>
                hasValidLocation p.2 relation (dictLookup objects nested) none) then
              [p.1]
            else []
        else [])
      .mk objCandidates (some relation) (some nestedCandidates) nestedCandidates2
    | .leaf s c f =>
      let objCandidates := objects.filterMap (fun p =>
        if hasSameAttributes (.leaf s c f) p.2.definition then some p.1 else none)
      .mk objCandidates none none none

/-- `Interpreter.createLiteral(relation, args)`. -/
def createLiteral (relation : String) (args : List String) : Literal :=
  { polarity := true, relation := relation, args := args }

/-- `Interpreter.generateAnyDNF(cmd, …)`.  For `put`/`move` the double
(or, for `between`, triple) loop over the candidate lists; the
`between` arm pushes its conjunction without any feasibility check. -/
def generateAnyDNF (cmd : Command) (mainCandidates : Candidates)
    (goalLocationCandidates : Candidates)
    (betweenSecondLocationCandidates : Option Candidates)
    (existingObjects : ObjectDict) : DNFFormula :=
  if cmd.command == "put" || cmd.command == "move" then
    mainCandidates.main.flatMap (fun target =>
      goalLocationCandidates.main.flatMap (fun goal =>
        if (cmd.location.map PLocation.relation).getD "" == "between" then
          ((betweenSecondLocationCandidates.map Candidates.main).getD []).map
            (fun otherGoal => [createLiteral "between" [target, goal, otherGoal]])
        else
          match dictLookup existingObjects target with
          | some targetObj =>
            if isValidGoalLocation targetObj
                ((cmd.location.map PLocation.relation).getD "")
                (dictLookup existingObjects goal) none then
              [[createLiteral ((cmd.location.map PLocation.relation).getD "")
                  [target, goal]]]
            else []
          | none => []))  -- source would fault on an absent candidate
  else if cmd.command == "take" then
    mainCandidates.main.filterMap (fun target =>
      if target != "floor" then some [createLiteral "holding" [target]] else none)
  else []

/-- `Interpreter.addCombinations(a, length, highest, set)`: depth-first
enumeration of all sequences extending `a` to length `length` with
values in `[0..highest]`.  The set insertion order is the generation
order, so the collection is modelled as a list; the remaining length
(`length - a.length`) is made explicit as the recursion fuel. -/
def addCombinations (fuel : Nat) (a : List Nat) (highest : Int) : List (List Nat) :=
  match fuel with
  | 0 => [a]
  | Nat.succ f =>
    (List.range ((highest + 1).toNat)).flatMap
      (fun i => addCombinations f (a ++ [i]) highest)

/-- `Interpreter.getCombinations(length, highest)`.  `highest` is an
`Int` because callers pass `len - 1`, which is `-1` for an empty
candidate list. -/
def getCombinations (length : Nat) (highest : Int) : List (List Nat) :=
  addCombinations length [] highest

/-- The inner loop of `Interpreter.createOneSidedAllDNF`: walk the
assignment (position `idx`, value `assignment[idx]`), collect one
literal per feasible pair, abort (`none`) as soon as one pair is
infeasible — the source then sets `allConj = []` and breaks. -/
def oneSidedConjAux (candidates1 candidates2 : List String)
    (existingObjects : ObjectDict) (relation : String) (invertedRelation : Bool) :
    List (Nat × Nat) → Option (List Literal)
  | [] => some []
  | p :: rest =>
    let targetC := if !invertedRelation then candidates1.getD p.1 ""
                   else candidates2.getD p.2 ""
    let goalC := if !invertedRelation then candidates2.getD p.2 ""
                 else candidates1.getD p.1 ""
    match dictLookup existingObjects targetC with
    | some targetCObj =>
      if isValidGoalLocation targetCObj relation (dictLookup existingObjects goalC) none then
        (oneSidedConjAux candidates1 candidates2 existingObjects relation
          invertedRelation rest).map
          (fun r => createLiteral relation [targetC, goalC] :: r)
      else none
    | none => none  -- source would fault in isValidGoalLocation on an absent candidate

/-- `Interpreter.createOneSidedAllDNF(candidates_1, candidates_2, …)`:
one conjunction per assignment of `candidates_1` into `candidates_2`;
aborted or empty conjunctions are not pushed. -/
def createOneSidedAllDNF (candidates1 candidates2 : List String)
    (existingObjects : ObjectDict) (relation : String)
    (invertedRelation : Bool) : DNFFormula :=
  (getCombinations candidates1.length ((candidates2.length : Int) - 1)).filterMap
    (fun assignment =>
      match oneSidedConjAux candidates1 candidates2 existingObjects relation
          invertedRelation assignment.enum with
      | some allConj => if allConj.length != 0 then some allConj else none
      | none => none)

/-- `Interpreter.createTwoSidedBetweenAllDNF(candidates, notAllCandidate)`.
In the JS `assignment.map((idx, pairIdx) => …)` the first callback
argument is the element and the second the position, so `idx` is the
assignment value and `pairIdx` the position. -/
def createTwoSidedBetweenAllDNF (candidates : List (List String))
    (notAllCandidate : Nat) : DNFFormula :=
  let allCandidate1 := (notAllCandidate + 1) % 3
  let allCandidate2 := (notAllCandidate + 2) % 3
  let len2 := (candidates.getD allCandidate2 []).length
  (getCombinations ((candidates.getD allCandidate1 []).length * len2)
      (((candidates.getD notAllCandidate []).length : Int) - 1)).map
    (fun assignment =>
      assignment.enum.map (fun p =>
        let pairIdx := p.1
        let idx := p.2
        let allIdx1 := pairIdx / len2
        let allIdx2 := pairIdx % len2
        let getIdx := fun (n : Nat) =>
          if notAllCandidate == n then idx
          else if notAllCandidate == ((n + 1) % 3) then allIdx2
          else allIdx1
        createLiteral "between"
          [(candidates.getD 0 []).getD (getIdx 0) "",
           (candidates.getD 1 []).getD (getIdx 1) "",
           (candidates.getD 2 []).getD (getIdx 2) ""]))

/-- `Interpreter.createOneSidedBetweenAllDNF(candidates, allCandidate)`.
Here the JS callback is `(pairIdx, idx)`, so the assignment value is the
pair index and the position indexes the `all` side. -/
def createOneSidedBetweenAllDNF (candidates : List (List String))
    (allCandidate : Nat) : DNFFormula :=
  let nonCandidate2 := (allCandidate + 2) % 3
  let len2 := (candidates.getD nonCandidate2 []).length
  (getCombinations (candidates.getD allCandidate []).length
      ((((candidates.getD ((allCandidate + 1) % 3) []).length * len2 : Nat) : Int) - 1)).map
    (fun assignment =>
      assignment.enum.map (fun p =>
        let idx := p.1
        let pairIdx := p.2
        let nonIdx1 := pairIdx / len2
        let nonIdx2 := pairIdx % len2
        let getIdx := fun (n : Nat) =>
          if allCandidate == n then idx
          else if allCandidate == ((n + 1) % 3) then nonIdx2
          else nonIdx1
        createLiteral "between"
          [(candidates.getD 0 []).getD (getIdx 0) "",
           (candidates.getD 1 []).getD (getIdx 1) "",
           (candidates.getD 2 []).getD (getIdx 2) ""]))

/-- The `checkForDuplicate` closure of
`Interpreter.filterInvalidConjunction`: true when more than one
position of the list holds a value that occurs more than once. -/
def checkForDuplicate (arg : List String) : Bool :=
  decide (((arg.map (fun object =>
    decide ((arg.filter (fun o => o == object)).length > 1))).filter
      (fun b => b)).length > 1)

/-- `Interpreter.filterInvalidConjunction(interpretation)`: drop
conjunctions that repeat a non-floor identifier among the first or
among the second literal arguments.  A missing argument (`args[i]` out
of range, `undefined` in JS) is modelled as `""`. -/
def filterInvalidConjunction (interpretation : DNFFormula) : DNFFormula :=
  interpretation.filter (fun conjunction =>
    let arg1 := (conjunction.map (fun literal => literal.args.getD 0 "")).filter
      (fun o => o != "floor")
    let arg2 := (conjunction.map (fun literal => literal.args.getD 1 "")).filter
      (fun o => o != "floor")
    !(checkForDuplicate arg1) && !(checkForDuplicate arg2))

/-- The inner goal loop of the both-sides-`all` case of
`Interpreter.generateAllDNF`: skip pairs whose two candidates resolve to
the same object, abort (the source's `return []`) as soon as one
remaining pair is infeasible. -/
def bothAllInnerLoop (existingObjects : ObjectDict) (relation : String)
    (target : String) : List String → Option (List Literal)
  | [] => some []
  | goal :: rest =>
    let targetObj := dictLookup existingObjects target
    let goalObj := dictLookup existingObjects goal
    if targetObj != goalObj then
      match targetObj with
      | some tObj =>
        if !(isValidGoalLocation tObj relation goalObj none) then none
        else (bothAllInnerLoop existingObjects relation target rest).map
          (fun r => createLiteral relation [target, goal] :: r)
      | none => none  -- source would fault in isValidGoalLocation on an absent candidate
    else bothAllInnerLoop existingObjects relation target rest

/-- The outer target loop of the both-sides-`all` case of
`Interpreter.generateAllDNF`. -/
def bothAllOuterLoop (existingObjects : ObjectDict) (relation : String)
    (goals : List String) : List String → Option (List Literal)
  | [] => some []
  | target :: rest =>
    match bothAllInnerLoop existingObjects relation target goals with
    | none => none
    | some c1 =>
      (bothAllOuterLoop existingObjects relation goals rest).map (fun c2 => c1 ++ c2)

/-- `Interpreter.generateAllDNF(cmd, …)`.  The `take` branch throws
(`Except.error`) when more than one candidate exists; the `move`/`put`
branch never throws.  An early `return []` of the source is modelled by
returning `.ok []` directly (the skipped `ontop`/`inside` post-filter
maps `[]` to `[]` anyway). -/
def generateAllDNF (cmd : Command) (mainCandidates : Candidates)
    (goalLocationCandidates : Candidates)
    (betweenSecondLocationCandidates : Option Candidates)
    (existingObjects : ObjectDict) : Except String DNFFormula :=
  if cmd.command == "move" || cmd.command == "put" then
    match cmd.location with
    | none => .ok []  -- unreachable: the source would fault on cmd.location.entity
    | some loc =>
      let hasMainAll := match cmd.entity with
        | some e => e.quantifier == "all"
        | none => false
      let hasGoalAll := loc.entity.quantifier == "all"
      let hasBetweenGoalAll := match loc.entity2 with
        | some e2 => e2.quantifier == "all"
        | none => false
      let relation := loc.relation
      if relation == "leftof" || relation == "rightof" || relation == "beside" ||
          relation == "above" || relation == "under" || relation == "inside" ||
          relation == "ontop" then
        if hasMainAll && hasGoalAll then
          -- All combinations have to be satisfied
          match bothAllOuterLoop existingObjects relation
              goalLocationCandidates.main mainCandidates.main with
          | none => .ok []  -- one infeasible literal destroys everything
          | some allConj =>
            .ok (if relation == "ontop" || relation == "inside" then
                  filterInvalidConjunction [allConj]
                else [allConj])
        else
          let interpretation :=
            if hasMainAll then
              createOneSidedAllDNF mainCandidates.main goalLocationCandidates.main
                existingObjects relation false
            else
              createOneSidedAllDNF goalLocationCandidates.main mainCandidates.main
                existingObjects relation true
          .ok (if relation == "ontop" || relation == "inside" then
                filterInvalidConjunction interpretation
              else interpretation)
      else if relation == "between" then
        let mains := mainCandidates.main
        let goals1 := goalLocationCandidates.main
        let goals2 := (betweenSecondLocationCandidates.map Candidates.main).getD []
        if hasMainAll && hasGoalAll && hasBetweenGoalAll then
          .ok [mains.flatMap (fun target =>
                goals1.flatMap (fun goal1 =>
                  goals2.map (fun goal2 =>
                    createLiteral "between" [target, goal1, goal2])))]
        else if !hasMainAll && hasGoalAll && hasBetweenGoalAll then
          .ok (createTwoSidedBetweenAllDNF [mains, goals1, goals2] 0)
        else if hasMainAll && !hasGoalAll && hasBetweenGoalAll then
          .ok (createTwoSidedBetweenAllDNF [mains, goals1, goals2] 1)
        else if hasMainAll && hasGoalAll && !hasBetweenGoalAll then
          .ok (createTwoSidedBetweenAllDNF [mains, goals1, goals2] 2)
        else if hasMainAll && !hasGoalAll && !hasBetweenGoalAll then
          .ok (createOneSidedBetweenAllDNF [mains, goals1, goals2] 0)
        else if !hasMainAll && hasGoalAll && !hasBetweenGoalAll then
          .ok (createOneSidedBetweenAllDNF [mains, goals1, goals2] 1)
        else if !hasMainAll && !hasGoalAll && hasBetweenGoalAll then
          .ok (createOneSidedBetweenAllDNF [mains, goals1, goals2] 2)
        else .ok []
      else .ok []  -- unknown relation: no case of the switch applies
  else if cmd.command == "take" then
    -- Simple: we can only take one object
    if mainCandidates.main.length > 1 then
      .error "Only one object can be held at a time!"
    -- Prevent floor from being picked
    else if mainCandidates.main.head? != some "floor" then
      .ok [[createLiteral "holding" mainCandidates.main]]
    else .ok []
  else .ok []

/-- The indices visited by the `(startingPosition, stepSize)` loop of
`Interpreter.throwGeneralClarificationError` over a list of the given
length. -/
def clarifyIndices (len start step : Nat) : List Nat :=
  (List.range len).filter (fun i => decide (start ≤ i) && (i - start) % step == 0)

/-- The definition looked up for a candidate identifier by the
clarification code (`existingObjects[candidateID].definition`); a
missing identifier would fault in the source. -/
def clarifyDefinition (existingObjects : ObjectDict) (candidateID : String) :
    ObjectDefinition :=
  match dictLookup existingObjects candidateID with
  | some o => o.definition
  | none => { form := "", size := none, color := none }

/-- The accumulation loop of
`Interpreter.throwGeneralClarificationError`: walk the visited
conjunctions, take the first literal's argument in `column`, register
its `"the size color form"` description, and throw when two distinct
candidates collapse to the same description. -/
def clarifyLoop (interpretation : DNFFormula) (column : Nat)
    (existingObjects : ObjectDict) :
    List Nat → List String → List (String × String) →
    Except String (List String × List (String × String))
  | [], candidateSet, descriptionLookUp => .ok (candidateSet, descriptionLookUp)
  | i :: rest, candidateSet, descriptionLookUp =>
    let firstLiteral := (interpretation.getD i []).headD (createLiteral "" [])
    let candidateID := firstLiteral.args.getD column ""
    if !(candidateSet.contains candidateID) then
      let d := clarifyDefinition existingObjects candidateID
      let descrString := "the " ++ jsStr d.size ++ " " ++ jsStr d.color ++ " " ++ d.form
      if descriptionLookUp.any (fun p => p.1 == descrString) then
        .error ("The description " ++ descrString ++ " is ambiguous. Please specify.")
      else
        clarifyLoop interpretation column existingObjects rest
          (candidateSet ++ [candidateID])
          (descriptionLookUp ++ [(descrString, candidateID)])
    else
      clarifyLoop interpretation column existingObjects rest candidateSet descriptionLookUp

/-- `Interpreter.throwGeneralClarificationError(interpretation, column,
existingObjects, startingPosition, stepSize)`: `.ok ()` when no
ambiguity is detected, `.error` with the user question otherwise. -/
def throwGeneralClarificationError (interpretation : DNFFormula) (column : Nat)
    (existingObjects : ObjectDict) (startingPosition stepSize : Nat) :
    Except String Unit :=
  match clarifyLoop interpretation column existingObjects
      (clarifyIndices interpretation.length startingPosition stepSize) [] [] with
  | .error e => .error e
  | .ok (candidateSet, descriptionLookUp) =>
    if candidateSet.length < 2 then .ok ()
    else .error ("[ambiguity]" ++
      String.intercalate "|" (descriptionLookUp.map Prod.fst))

/-- `Interpreter.throwClarificationError`. -/
def throwClarificationError (interpretation : DNFFormula) (column : Nat)
    (existingObjects : ObjectDict) : Except String Unit :=
  throwGeneralClarificationError interpretation column existingObjects 0 1

/-- `Interpreter.throwBetweenClarificationError`: the `(0,2)` walk, then
the `(1,2)` walk. -/
def throwBetweenClarificationError (interpretation : DNFFormula) (column : Nat)
    (existingObjects : ObjectDict) : Except String Unit := do
  throwGeneralClarificationError interpretation column existingObjects 0 2
  throwGeneralClarificationError interpretation column existingObjects 1 2

/-- An empty `Candidates` record, used where the source leaves the
corresponding variable `undefined` and the loops never touch it. -/
def emptyCandidates : Candidates := .mk [] none none none

/-- `Interpreter.interpretCommand(cmd, state)`.  Errors
(`throw new Error(…)` in the source) are modelled as `Except.error` with
the error message. -/
def interpretCommand (cmd : Command) (state : WorldState) : Except String DNFFormula :=
  let existingObjects := filterExistingObjects state
  -- Get candidates for object to move
  let mainCandidates : Candidates :=
    if cmd.command != "put" then
      match cmd.entity with
      | some e => filterCandidate e existingObjects
      | none => emptyCandidates  -- source would fault on an absent entity
    else
      -- Create "candidate" from held object
      let candidateList := match state.holding with
        | none => []
        | some h => [h]
      .mk candidateList none none none
  -- Get candidates for optional location (for move and put)
  let goalLocationCandidates : Option Candidates :=
    match cmd.location with
    | some loc => some (filterCandidate loc.entity existingObjects)
    | none => none
  let betweenSecondLocationCandidates : Option Candidates :=
    match cmd.location with
    | some loc =>
      if loc.relation == "between" then
        match loc.entity2 with
        | some e2 => some (filterCandidate e2 existingObjects)
        | none => none  -- source would fault calling filterCandidate(undefined)
      else none
    | none => none
  -- Generate interpretation depending on whether an all quantifier occurs
  let anyCase :=
    (match cmd.entity with | some e => e.quantifier != "all" | none => true) &&
    (match cmd.location with
     | some loc => loc.entity.quantifier != "all"
     | none => true) &&
    (match cmd.location with
     | some loc =>
       match loc.entity2 with
       | some e2 => e2.quantifier != "all"
       | none => true
     | none => true)
  let interpretationE : Except String DNFFormula :=
    if anyCase then
      .ok (generateAnyDNF cmd mainCandidates (goalLocationCandidates.getD emptyCandidates)
        betweenSecondLocationCandidates existingObjects)
    else
      generateAllDNF cmd mainCandidates (goalLocationCandidates.getD emptyCandidates)
        betweenSecondLocationCandidates existingObjects
  match interpretationE with
  | .error e => .error e
  | .ok interpretation =>
    if interpretation.length == 0 then
      .error "Sentence has no valid interpretation in world"
    else
      let check1 : Except String Unit :=
        match cmd.entity with
        | some e =>
          if e.quantifier == "the" then
            if (match cmd.location with
                | some loc => loc.relation == "between"
                | none => false) && interpretation.length > 2 then
              throwBetweenClarificationError interpretation 0 existingObjects
            else if (match cmd.location with
                | some loc => loc.relation != "between"
                | none => true) && interpretation.length > 1 then
              throwClarificationError interpretation 0 existingObjects
            else .ok ()
          else .ok ()
        | none => .ok ()
      let check2 : Except String Unit :=
        match cmd.location with
        | some loc =>
          if loc.entity.quantifier == "the" then
            if loc.relation == "between" && interpretation.length > 2 then
              throwBetweenClarificationError interpretation 1 existingObjects
            else if loc.relation != "between" && interpretation.length > 1 then
              throwClarificationError interpretation 1 existingObjects
            else .ok ()
          else .ok ()
        | none => .ok ()
      let check3 : Except String Unit :=
        match cmd.location with
        | some loc =>
          if loc.relation == "between" &&
              (match loc.entity2 with
               | some e2 => e2.quantifier == "the"
               | none => false) then  -- absent entity2 would fault in the source
            if interpretation.length > 2 then
              throwBetweenClarificationError interpretation 1 existingObjects
            else .ok ()
          else .ok ()
        | none => .ok ()
      do
        check1
        check2
        check3
        return interpretation

/-- `Interpreter.interpret(parses, currentState)`: try every parse,
collect the successful interpretations and the errors; return the
successes when there is at least one, otherwise throw the first
collected error (`errors[0]`, which is `undefined` — here `none` — when
there was no parse at all). -/
def interpret (parses : List Command) (currentState : WorldState) :
    Except (Option String) (List (Command × DNFFormula)) :=
  let acc := parses.foldl
    (fun (acc : List String × List (Command × DNFFormula)) parseresult =>
      match interpretCommand parseresult currentState with
      | .ok interp => (acc.1, acc.2 ++ [(parseresult, interp)])
      | .error err => (acc.1 ++ [err], acc.2)) ([], [])
  if acc.2.length != 0 then .ok acc.2
  else .error acc.1.head?

/-- `Planner.plan(interpretations, currentState)`.  The per-interpretation
planner `planInterpretation` drives an A* search whose implementation
(`Graph.ts`) is not part of the sources, so it is a parameter here; the
error-collection policy and the zero-length-plan replacement are the
translated source code. -/
def plan (planInterpretationFn : DNFFormula → WorldState → Except String (List String))
    (interpretations : List (Command × DNFFormula)) (currentState : WorldState) :
    Except (Option String) (List ((Command × DNFFormula) × List String)) :=
  let acc := interpretations.foldl
    (fun (acc : List String × List ((Command × DNFFormula) × List String)) interpretation =>
      match planInterpretationFn interpretation.2 currentState with
      | .ok p =>
        let thePlan := if p.length == 0 then ["That is already true!"] else p
        (acc.1, acc.2 ++ [(interpretation, thePlan)])
      | .error err => (acc.1 ++ [err], acc.2)) ([], [])
  if acc.2.length != 0 then .ok acc.2
  else .error acc.1.head?

/-! ## Planner search space (`Planner.ts`) -/

/-- `Planner.WorldStateNode` (arm position deliberately absent).
`stacks` is a reserved word in this environment, hence the primed field
name. -/
structure WorldStateNode where
  holding : Option String
  stacks' : List (List String)
deriving DecidableEq, Repr

/-- The stack scan of `Planner.getObjectFromWorldState`: first stack
containing the object (the source breaks out of the loop). -/
def findInStacksAux (obj : String) : List (List String) → Nat → Option (Nat × Nat)
  | [], _ => none
  | s :: rest, i =>
    match s.indexOf? obj with
    | some loc => some (i, loc)
    | none => findInStacksAux obj rest (i + 1)

/-- `Planner.getObjectFromWorldState(state, obj, objects)`.  The floor
record is created with a `null` definition in the source; every use in
reachable code is guarded by the `floor` flag, and we reuse the floor
definition record.  An object found on no stack keeps the sentinel
coordinates (`undefined` in the source). -/
def getObjectFromWorldState (state : WorldStateNode) (obj : Option String)
    (objects : String → ObjectDefinition) : Option FoundObject :=
  match obj with
  | none => none
  | some o =>
    if o == "floor" then
      some floorFoundObject
    else if state.holding == some o then
      some { definition := objects o, held := true, stackId := -1,
             stackLocation := -1, floor := false }
    else
      match findInStacksAux o state.stacks' 0 with
      | some il =>
        some { definition := objects o, held := false, stackId := (il.1 : Int),
               stackLocation := (il.2 : Int), floor := false }
      | none =>
        some { definition := objects o, held := false, stackId := -1,
               stackLocation := -1, floor := false }

/-- `state.stacks[i]` for an `Int` index; an out-of-range access would
yield `undefined` and fault in the source. -/
def stackAt (state : WorldStateNode) (i : Int) : List String :=
  if 0 ≤ i then state.stacks'.getD i.toNat [] else []

/-- Number of objects above `o` in its stack:
`state.stacks[o.stackId].length - o.stackLocation - 1`. -/
def aboveCount (state : WorldStateNode) (o : FoundObject) : Int :=
  ((stackAt state o.stackId).length : Int) - o.stackLocation - 1

/-- `Math.min(...state.stacks.map((n) => n.length))` (`+∞` on no stacks
in JS; the worlds always have stacks). -/
def minStackLen (state : WorldStateNode) : Int :=
  match state.stacks'.map (fun n => (n.length : Int)) with
  | [] => 0
  | x :: xs => xs.foldl min x

/-- The per-literal case analysis of `Planner.heuristic`.  Option
matches replace the `undefined` dereferences that cannot occur for the
literals the interpreter builds. -/
def litHeuristic (state : WorldStateNode) (objects : String → ObjectDefinition)
    (literal : Literal) : Int :=
  let o1 := getObjectFromWorldState state literal.args[0]? objects
  let o2 := getObjectFromWorldState state literal.args[1]? objects
  let o3 := getObjectFromWorldState state literal.args[2]? objects
  match o1 with
  | none => 0  -- unreachable: every literal has a first argument
  | some c1 =>
    -- Check if relation already satisfied
    if hasValidLocation c1 literal.relation o2 o3 then 0
    else
      match literal.relation with
      | "beside" | "rightof" | "leftof" =>
        match o2 with
        | none => 0  -- source would fault
        | some c2 =>
          let above0 := if c1.held then 0 else aboveCount state c1
          let above1 := if c2.held then 0 else aboveCount state c2
          (if c1.held then 0 else 1) + (if c2.held then 0 else 1) +
            2 * min above0 above1
      | "inside" | "ontop" =>
        match o2 with
        | none => 0
        | some c2 =>
          (if c1.held then 1 else 2 * aboveCount state c1 + 2) +
          (if c2.held then 1
           else if c2.floor then 2 * minStackLen state
           else 2 * aboveCount state c2)
      | "under" =>
        match o2 with
        | none => 0
        | some c2 =>
          (if c2.held then 1 else 2 * aboveCount state c2 + 2) +
          (if c1.held then 1 else 0)
      | "above" =>
        match o2 with
        | none => 0
        | some c2 =>
          (if c1.held then 1 else 2 * aboveCount state c1 + 2) +
          (if c2.held then 1 else 0)
      | "holding" =>
        if c1.held then 0 else 2 * aboveCount state c1 + 1
      | "between" =>
        match o2, o3 with
        | some c2, some c3 =>
          let stackDist := (c2.stackId - c3.stackId).natAbs
          if c1.held then
            if stackDist > 1 then 1
            else 1 + 2 * min (aboveCount state c2) (aboveCount state c3)
          else
            if c2.held || c3.held then 1
            else 2 + 2 * min (aboveCount state c1)
              (min (aboveCount state c2) (aboveCount state c3))
        | _, _ => 0  -- source would fault
      | _ => 0  -- unknown relation: warning only, h stays 0

/-- `Math.max` over a literal-heuristic list (empty conjunctions, which
would give `-∞`, do not occur). -/
def maxListInt : List Int → Int
  | [] => 0
  | x :: xs => xs.foldl max x

/-- `Math.min` over the conjunction heuristics (an empty DNF, which
would give `+∞`, does not occur). -/
def minListInt : List Int → Int
  | [] => 0
  | x :: xs => xs.foldl min x

/-- `Planner.heuristic(state, goal, objects)`: per conjunction the
maximum literal bound, over the DNF the minimum conjunction bound. -/
def heuristic (state : WorldStateNode) (goal : DNFFormula)
    (objects : String → ObjectDefinition) : Int :=
  minListInt (goal.map (fun conj => maxListInt (conj.map (litHeuristic state objects))))

/-- `Planner.isGoal(node, interpretation, objects)`: some conjunction
with every literal satisfied by `hasValidLocation` on the objects its
arguments denote in the node. -/
def isGoal (node : WorldStateNode) (interpretation : DNFFormula)
    (objects : String → ObjectDefinition) : Bool :=
  interpretation.any (fun goal =>
    goal.all (fun literal =>
      match getObjectFromWorldState node literal.args[0]? objects with
      | some object1 =>
        hasValidLocation object1 literal.relation
          (getObjectFromWorldState node literal.args[1]? objects)
          (getObjectFromWorldState node literal.args[2]? objects)
      | none => false))  -- unreachable: every literal has a first argument

/-- `Edge<WorldStateNode>`; `from` is a Lean keyword, hence
`fromNode`/`toNode`. -/
structure Edge where
  fromNode : WorldStateNode
  toNode : WorldStateNode
  cost : Int
deriving DecidableEq, Repr

/-- `Planner.WorldStateGraph.outgoingEdges(node)`: pop the top of one
non-empty stack when nothing is held, otherwise drop the held object on
any stack whose top supports it (an empty stack always does). -/
def outgoingEdges (objects : String → ObjectDefinition)
    (node : WorldStateNode) : List Edge :=
  match node.holding with
  | none =>
    -- Pick up all objects which are on the top
    (List.range node.stacks'.length).filterMap (fun i =>
      let s := node.stacks'.getD i []
      match s.getLast? with
      | none => none  -- Skip empty stacks
      | some obj =>
        some { fromNode := node
               toNode := { holding := some obj, stacks' := node.stacks'.set i s.dropLast }
               cost := 1 })
  | some held =>
    -- Find all possible stacks where to put the held object
    (List.range node.stacks'.length).filterMap (fun i =>
      let s := node.stacks'.getD i []
      if s.length != 0 &&
          !(isStackingAllowedByPhysics (objects held) (objects (s.getLastD ""))) then
        none  -- Check physics
      else
        some { fromNode := node
               toNode := { holding := none, stacks' := node.stacks'.set i (s ++ [held]) }
               cost := 1 })

/-! ## Theorems about the claims -/

/-- C2: `isGoal(n, φ)` returns true if and only if some conjunction of
`φ` has every one of its literals satisfied by `hasValidLocation`
applied over the objects that the literal's arguments denote in `n`. -/
theorem isGoal_iff_satisfied_conjunction (node : WorldStateNode)
    (interpretation : DNFFormula) (objects : String → ObjectDefinition) :
    isGoal node interpretation objects = true ↔
      ∃ conj ∈ interpretation, ∀ lit ∈ conj, ∃ object1,
        getObjectFromWorldState node lit.args[0]? objects = some object1 ∧
        hasValidLocation object1 lit.relation
          (getObjectFromWorldState node lit.args[1]? objects)
          (getObjectFromWorldState node lit.args[2]? objects) = true := by
  simp only [isGoal, List.any_eq_true, List.all_eq_true]
  refine exists_congr fun conj => and_congr_right fun _ => forall_congr' fun lit => ?_
  refine forall_congr' fun _ => ?_
  cases h : getObjectFromWorldState node lit.args[0]? objects <;> simp [h]

/-- A small white ball sitting at the bottom of stack 0. -/
def ballAtStack0 : FoundObject :=
  { definition := { form := "ball", size := some "small", color := some "white" }
    held := false, stackId := 0, stackLocation := 0, floor := false }

/-- A large red box sitting at the bottom of stack 2. -/
def boxAtStack2 : FoundObject :=
  { definition := { form := "box", size := some "large", color := some "red" }
    held := false, stackId := 2, stackLocation := 0, floor := false }

/-- C5, counterexample: two unheld, non-floor objects whose stacks are
two columns apart satisfy `beside` in the code, although the absolute
stack distance is 2, not 1 as the claim demands. -/
theorem beside_distance_two_counterexample :
    hasValidLocation ballAtStack0 "beside" (some boxAtStack2) none = true ∧
    (ballAtStack0.stackId - boxAtStack2.stackId).natAbs ≠ 1 := by decide

/-- C5, amended: for two objects that are not held, `beside` holds iff
their stack indices differ (any distance, not only distance 1). -/
theorem beside_iff_stack_indices_differ (c1 c2 : FoundObject)
    (h1 : c1.held = false) (h2 : c2.held = false) :
    hasValidLocation c1 "beside" (some c2) none = true ↔
      c1.stackId ≠ c2.stackId := by
  simp [hasValidLocation, h1, h2]

/-- Witness for the amended C5 theorem at a concrete pair of objects. -/
theorem beside_iff_stack_indices_differ_witness :
    hasValidLocation ballAtStack0 "beside" (some boxAtStack2) none = true :=
  (beside_iff_stack_indices_differ ballAtStack0 boxAtStack2 rfl rfl).mpr (by decide)

/-- A `take` command whose entity carries the `all` quantifier. -/
def takeAllCommand : Command :=
  { command := "take"
    entity := some (.mk "all" (.leaf none none "anyform"))
    location := none }

/-- C6, counterexample: when the candidate list is exactly `["floor"]`
(zero candidates once the floor is excluded), the claim demands the
error `"Only one object can be held at a time!"`, but `generateAllDNF`
returns the empty DNF without any error (the caller then reports
`"Sentence has no valid interpretation in world"` instead). -/
theorem generateAllDNF_take_floor_counterexample :
    generateAllDNF takeAllCommand (.mk ["floor"] none none none)
      emptyCandidates none [] = .ok [] := rfl

/-- C6, amended: for a `take` command, `generateAllDNF` throws
`"Only one object can be held at a time!"` iff the candidate list
(floor included in the count) has more than one element; with a single
non-floor candidate `m` it produces `[[holding(m)]]`; with the single
candidate `floor` it returns the empty DNF without error; and with no
candidate at all it produces a degenerate `holding` literal with no
arguments. -/
theorem generateAllDNF_take_characterization (cmd : Command)
    (main goals : Candidates) (bsc : Option Candidates) (existing : ObjectDict)
    (hcmd : cmd.command = "take") :
    (generateAllDNF cmd main goals bsc existing =
        .error "Only one object can be held at a time!" ↔ 1 < main.main.length)
    ∧ (∀ m, main.main = [m] → m ≠ "floor" →
        generateAllDNF cmd main goals bsc existing =
          .ok [[createLiteral "holding" [m]]])
    ∧ (main.main = ["floor"] →
        generateAllDNF cmd main goals bsc existing = .ok [])
    ∧ (main.main = [] →
        generateAllDNF cmd main goals bsc existing =
          .ok [[createLiteral "holding" []]]) := by
  have hre : generateAllDNF cmd main goals bsc existing =
      (if main.main.length > 1 then
        .error "Only one object can be held at a time!"
      else if main.main.head? != some "floor" then
        .ok [[createLiteral "holding" main.main]]
      else .ok []) := by
    simp [generateAllDNF, hcmd]
  refine ⟨?_, ?_, ?_, ?_⟩
  · rw [hre]
    split_ifs with h h2
    · exact iff_of_true rfl h
    · exact iff_of_false (by simp) h
    · exact iff_of_false (by simp) h
  · intro m hm hfl
    rw [hre, hm]
    simp [hfl]
  · intro hm
    rw [hre, hm]
    simp
  · intro hm
    rw [hre, hm]
    simp

/-- Witness for the amended C6 theorem: a singleton non-floor candidate
list produces the singleton `holding` DNF. -/
theorem generateAllDNF_take_characterization_witness :
    generateAllDNF takeAllCommand (.mk ["a"] none none none)
      emptyCandidates none [] = .ok [[createLiteral "holding" ["a"]]] :=
  (generateAllDNF_take_characterization takeAllCommand
    (.mk ["a"] none none none) emptyCandidates none [] rfl).2.1 "a" rfl (by decide)

/-- Matching an object definition against the bare `form` description. -/
def matchesFormDesc (obj o : ObjectDefinition) : Bool :=
  obj.form == o.form

/-- Matching against the `color form` description. -/
def matchesColorFormDesc (obj o : ObjectDefinition) : Bool :=
  obj.form == o.form && obj.color == o.color

/-- Matching against the full `size color form` description. -/
def matchesFullDesc (obj o : ObjectDefinition) : Bool :=
  obj.form == o.form && obj.color == o.color && obj.size == o.size

/-- The description matcher at precision level 0 (`form`), 1
(`color form`) and 2 (`size color form`). -/
def descMatcher (obj : ObjectDefinition) : Nat → (ObjectDefinition → Bool)
  | 0 => matchesFormDesc obj
  | 1 => matchesColorFormDesc obj
  | _ => matchesFullDesc obj

/-- The description string at each precision level. -/
def descString (obj : ObjectDefinition) : Nat → String
  | 0 => obj.form
  | 1 => jsStr obj.color ++ " " ++ obj.form
  | _ => jsStr obj.size ++ " " ++ jsStr obj.color ++ " " ++ obj.form

/-- A description level uniquely identifies `obj` when exactly one
object of the world matches it. -/
def uniquelyIdentifies (obj : ObjectDefinition)
    (objects : List (String × ObjectDefinition)) (lvl : Nat) : Prop :=
  ((objects.map Prod.snd).filter (descMatcher obj lvl)).length = 1

/-- A world holding two identical small red balls. -/
def twinBallWorld : List (String × ObjectDefinition) :=
  [("a", { form := "ball", size := some "small", color := some "red" }),
   ("b", { form := "ball", size := some "small", color := some "red" })]

/-- C9, counterexample: in a world with two identical small red balls
no description level uniquely identifies the ball, yet
`getMinimalDescription` still returns the full `"small red ball"`
string — so it does not return a uniquely identifying description. -/
theorem getMinimalDescription_counterexample :
    getMinimalDescription
      { form := "ball", size := some "small", color := some "red" } twinBallWorld
      = "small red ball" ∧
    ¬ uniquelyIdentifies
      { form := "ball", size := some "small", color := some "red" } twinBallWorld 0 ∧
    ¬ uniquelyIdentifies
      { form := "ball", size := some "small", color := some "red" } twinBallWorld 1 ∧
    ¬ uniquelyIdentifies
      { form := "ball", size := some "small", color := some "red" } twinBallWorld 2 := by
  refine ⟨by decide, ?_, ?_, ?_⟩ <;> simp [uniquelyIdentifies, descMatcher] <;> decide

/-- Each description string is strictly longer than the previous one. -/
theorem descString_length_lt (obj : ObjectDefinition) :
    (descString obj 0).length < (descString obj 1).length ∧
    (descString obj 1).length < (descString obj 2).length := by
  have hsp : (" ").length = 1 := rfl
  simp [descString, String.length_append, hsp]

/-- C9, amended: when at least one of the three description levels
uniquely identifies `obj` in the world, `getMinimalDescription` returns
the shortest uniquely identifying description; when none does, it
falls back to the full `size color form` description even though that
is not unique. -/
theorem getMinimalDescription_shortest_unique (obj : ObjectDefinition)
    (objects : List (String × ObjectDefinition))
    (_hmem : obj ∈ objects.map Prod.snd) :
    ((∃ lvl, lvl ≤ 2 ∧ uniquelyIdentifies obj objects lvl) →
      ∃ lvl, lvl ≤ 2 ∧ uniquelyIdentifies obj objects lvl ∧
        getMinimalDescription obj objects = descString obj lvl ∧
        (∀ lvl', lvl' ≤ 2 → uniquelyIdentifies obj objects lvl' →
          (descString obj lvl).length ≤ (descString obj lvl').length))
    ∧ ((∀ lvl, lvl ≤ 2 → ¬ uniquelyIdentifies obj objects lvl) →
      getMinimalDescription obj objects = descString obj 2) := by
  have key : getMinimalDescription obj objects =
      (if ((objects.map Prod.snd).filter (descMatcher obj 0)).length == 1 then
        descString obj 0
      else if ((objects.map Prod.snd).filter (descMatcher obj 1)).length == 1 then
        descString obj 1
      else descString obj 2) := rfl
  have hlen := descString_length_lt obj
  by_cases h0 : uniquelyIdentifies obj objects 0
  · refine ⟨fun _ => ⟨0, by omega, h0, ?_, ?_⟩, fun hno => absurd h0 (hno 0 (by omega))⟩
    · rw [key]
      simp [uniquelyIdentifies] at h0
      simp [h0]
    · intro lvl' _ _
      have h2 : lvl' = 0 ∨ lvl' = 1 ∨ 2 ≤ lvl' := by omega
      rcases h2 with rfl | rfl | h2
      · exact le_refl _
      · omega
      · have : descString obj lvl' = descString obj 2 := by
          match lvl', h2 with
          | n + 2, _ => rfl
        rw [this]; omega
  · by_cases h1 : uniquelyIdentifies obj objects 1
    · refine ⟨fun _ => ⟨1, by omega, h1, ?_, ?_⟩, fun hno => absurd h1 (hno 1 (by omega))⟩
      · rw [key]
        simp only [uniquelyIdentifies] at h0 h1
        simp [h0, h1]
      · intro lvl' hle hu
        have h2 : lvl' = 0 ∨ lvl' = 1 ∨ 2 ≤ lvl' := by omega
        rcases h2 with rfl | rfl | h2
        · exact absurd hu h0
        · exact le_refl _
        · have : descString obj lvl' = descString obj 2 := by
            match lvl', h2 with
            | n + 2, _ => rfl
          rw [this]; omega
    · have hres : getMinimalDescription obj objects = descString obj 2 := by
        rw [key]
        simp only [uniquelyIdentifies] at h0 h1
        simp [h0, h1]
      refine ⟨fun hex => ?_, fun _ => hres⟩
      obtain ⟨lvl, hle, hu⟩ := hex
      have h2 : lvl = 0 ∨ lvl = 1 ∨ lvl = 2 := by omega
      rcases h2 with rfl | rfl | rfl
      · exact absurd hu h0
      · exact absurd hu h1
      · refine ⟨2, by omega, hu, hres, ?_⟩
        intro lvl' hle' hu'
        have h3 : lvl' = 0 ∨ lvl' = 1 ∨ lvl' = 2 := by omega
        rcases h3 with rfl | rfl | rfl
        · exact absurd hu' h0
        · exact absurd hu' h1
        · exact le_refl _

/-- A world where the form alone already identifies the ball. -/
def ballBoxWorld : List (String × ObjectDefinition) :=
  [("a", { form := "ball", size := some "small", color := some "red" }),
   ("b", { form := "box", size := some "large", color := some "blue" })]

/-- Witness for the amended C9 theorem at a concrete world. -/
theorem getMinimalDescription_shortest_unique_witness :
    ((∃ lvl, lvl ≤ 2 ∧ uniquelyIdentifies
        { form := "ball", size := some "small", color := some "red" } ballBoxWorld lvl) →
      ∃ lvl, lvl ≤ 2 ∧ uniquelyIdentifies
          { form := "ball", size := some "small", color := some "red" } ballBoxWorld lvl ∧
        getMinimalDescription
          { form := "ball", size := some "small", color := some "red" } ballBoxWorld =
          descString { form := "ball", size := some "small", color := some "red" } lvl ∧
        (∀ lvl', lvl' ≤ 2 → uniquelyIdentifies
            { form := "ball", size := some "small", color := some "red" } ballBoxWorld lvl' →
          (descString { form := "ball", size := some "small", color := some "red" } lvl).length ≤
          (descString { form := "ball", size := some "small", color := some "red" } lvl').length))
    ∧ ((∀ lvl, lvl ≤ 2 → ¬ uniquelyIdentifies
          { form := "ball", size := some "small", color := some "red" } ballBoxWorld lvl) →
      getMinimalDescription
        { form := "ball", size := some "small", color := some "red" } ballBoxWorld =
        descString { form := "ball", size := some "small", color := some "red" } 2) :=
  getMinimalDescription_shortest_unique
    { form := "ball", size := some "small", color := some "red" } ballBoxWorld (by decide)

/-- A world dictionary with one ball, one box and the floor. -/
def ballBoxDict : ObjectDict :=
  [("a", ballAtStack0), ("k", boxAtStack2), ("floor", floorFoundObject)]

/-- A `move … between … and …` command without `all` quantifiers. -/
def betweenAnyCommand : Command :=
  { command := "move"
    entity := some (.mk "any" (.leaf none none "ball"))
    location := some (.mk "between"
      (.mk "any" (.leaf none none "ball"))
      (some (.mk "any" (.leaf none none "box")))) }

/-- C3, counterexample: in the `between` branch `generateAnyDNF` emits
the conjunction for the combination `(a, a, k)` even though
`isValidGoalLocation` rejects it (the target equals the first goal), so
emission is not equivalent to `isValidGoalLocation`. -/
theorem generateAnyDNF_between_unchecked_counterexample :
    generateAnyDNF betweenAnyCommand (.mk ["a"] none none none)
      (.mk ["a"] none none none) (some (.mk ["k"] none none none)) ballBoxDict
      = [[createLiteral "between" ["a", "a", "k"]]] ∧
    dictLookup ballBoxDict "a" = some ballAtStack0 ∧
    isValidGoalLocation ballAtStack0 "between" (some ballAtStack0)
      (dictLookup ballBoxDict "k") = false := by decide

/-- C3, amended: for a `move`/`put` command, a binary-relation
conjunction `[rel(t, g)]` is emitted iff the pair comes from the
candidate lists and `isValidGoalLocation` accepts it; a `between`
conjunction `[between(t, g1, g2)]` is emitted iff the triple comes from
the candidate lists, with no `isValidGoalLocation` check at all. -/
theorem generateAnyDNF_emission_characterization
    (cmd : Command) (loc : PLocation)
    (main goals : Candidates) (bsc : Option Candidates) (existing : ObjectDict)
    (hcmd : cmd.command = "move" ∨ cmd.command = "put")
    (hloc : cmd.location = some loc) :
    (∀ t g tObj gObj, loc.relation ≠ "between" →
      dictLookup existing t = some tObj → dictLookup existing g = some gObj →
      ([createLiteral loc.relation [t, g]] ∈
          generateAnyDNF cmd main goals bsc existing ↔
        (t ∈ main.main ∧ g ∈ goals.main ∧
          isValidGoalLocation tObj loc.relation (some gObj) none = true)))
    ∧ (loc.relation = "between" →
      ∀ t g1 g2, ([createLiteral "between" [t, g1, g2]] ∈
          generateAnyDNF cmd main goals bsc existing ↔
        (t ∈ main.main ∧ g1 ∈ goals.main ∧
          g2 ∈ (bsc.map Candidates.main).getD []))) := by
  have hcond : (cmd.command == "put" || cmd.command == "move") = true := by
    rcases hcmd with h | h <;> simp [h]
  have hform : generateAnyDNF cmd main goals bsc existing =
      main.main.flatMap (fun target =>
        goals.main.flatMap (fun goal =>
          if loc.relation == "between" then
            ((bsc.map Candidates.main).getD []).map
              (fun otherGoal => [createLiteral "between" [target, goal, otherGoal]])
          else
            match dictLookup existing target with
            | some targetObj =>
              if isValidGoalLocation targetObj loc.relation
                  (dictLookup existing goal) none then
                [[createLiteral loc.relation [target, goal]]]
              else []
            | none => [])) := by
    simp [generateAnyDNF, hcond, hloc]
  constructor
  · intro t g tObj gObj hrel hlt hlg
    have hrelb : (loc.relation == "between") = false := by
      simpa using hrel
    rw [hform]
    simp only [List.mem_flatMap, hrelb, Bool.false_eq_true, if_false]
    constructor
    · rintro ⟨a, ha, b, hb, hmem⟩
      rcases hla : dictLookup existing a with _ | toA
      · rw [hla] at hmem; simp at hmem
      · rw [hla] at hmem
        by_cases hv : isValidGoalLocation toA loc.relation (dictLookup existing b) none = true
        · have hargs : t = a ∧ g = b := by
            simp only [hv, if_true] at hmem
            simpa [createLiteral] using hmem
          obtain ⟨rfl, rfl⟩ := hargs
          rw [hlt] at hla
          obtain rfl : tObj = toA := by injection hla
          rw [hlg] at hv
          exact ⟨ha, hb, hv⟩
        · simp [hv] at hmem
    · rintro ⟨ht, hg, hv⟩
      refine ⟨t, ht, g, hg, ?_⟩
      rw [hlt, hlg] at *
      simp [hv]
  · intro hrel t g1 g2
    rw [hform]
    have hrelb : (loc.relation == "between") = true := by simp [hrel]
    simp only [List.mem_flatMap, hrelb, if_true, List.mem_map]
    constructor
    · rintro ⟨a, ha, b, hb, c, hc, heq⟩
      have hargs : t = a ∧ g1 = b ∧ g2 = c := by
        simpa [createLiteral] using heq.symm
      obtain ⟨rfl, rfl, rfl⟩ := hargs
      exact ⟨ha, hb, hc⟩
    · rintro ⟨ht, hg1, hg2⟩
      exact ⟨t, ht, g1, hg1, g2, hg2, rfl⟩

/-- Witness for the amended C3 theorem: the `(a, a, k)` between
combination is emitted. -/
theorem generateAnyDNF_emission_characterization_witness :
    [createLiteral "between" ["a", "a", "k"]] ∈
      generateAnyDNF betweenAnyCommand (.mk ["a"] none none none)
        (.mk ["a"] none none none) (some (.mk ["k"] none none none)) ballBoxDict :=
  ((generateAnyDNF_emission_characterization betweenAnyCommand
      (.mk "between" (.mk "any" (.leaf none none "ball"))
        (some (.mk "any" (.leaf none none "box"))))
      (.mk ["a"] none none none) (.mk ["a"] none none none)
      (some (.mk ["k"] none none none)) ballBoxDict
      (Or.inl rfl) rfl).2 rfl "a" "a" "k").mpr (by decide)

/-- `v` is reachable from `u` by one edge of `WorldStateGraph` (all
edges cost 1, so a path of `k` steps has cost `k`). -/
def stepReachable (objects : String → ObjectDefinition)
    (u v : WorldStateNode) : Bool :=
  (outgoingEdges objects u).any (fun e => e.toNode == v)

/-- Every consecutive pair of the list is connected by one edge of
`WorldStateGraph`. -/
def edgePath (objects : String → ObjectDefinition) : List WorldStateNode → Bool
  | u :: v :: rest => stepReachable objects u v && edgePath objects (v :: rest)
  | _ => true

/-- The object definitions of the heuristic counterexample world: a
large box `b`, a small plank `c`, a small brick `a` and a small
pyramid `x`. -/
def overcountObjects : String → ObjectDefinition := fun s =>
  if s == "b" then { form := "box", size := some "large", color := some "red" }
  else if s == "c" then { form := "plank", size := some "small", color := some "green" }
  else if s == "a" then { form := "brick", size := some "small", color := some "blue" }
  else { form := "pyramid", size := some "small", color := some "yellow" }

/-- Start node of the counterexample: one stack `[b, c, a, x]` (bottom
to top) and two empty stacks, nothing held. -/
def overcountStart : WorldStateNode :=
  { holding := none, stacks' := [["b", "c", "a", "x"], [], []] }

/-- The goal `ontop(a, b)`: put the brick directly on the box. -/
def overcountGoal : DNFFormula :=
  [[{ polarity := true, relation := "ontop", args := ["a", "b"] }]]

/-- An eight-step plan reaching the goal: clear `x` and `a` onto the
empty stacks, move `c` on top of `x`, then drop `a` onto `b`. -/
def overcountPath : List WorldStateNode :=
  [overcountStart,
   { holding := some "x", stacks' := [["b", "c", "a"], [], []] },
   { holding := none, stacks' := [["b", "c", "a"], ["x"], []] },
   { holding := some "a", stacks' := [["b", "c"], ["x"], []] },
   { holding := none, stacks' := [["b", "c"], ["x"], ["a"]] },
   { holding := some "c", stacks' := [["b"], ["x"], ["a"]] },
   { holding := none, stacks' := [["b"], ["x", "c"], ["a"]] },
   { holding := some "a", stacks' := [["b"], ["x", "c"], []] },
   { holding := none, stacks' := [["b", "a"], ["x", "c"], []] }]

/-- C1: the heuristic is not an admissible lower bound.  On
`overcountStart` with goal `ontop(a, b)` the heuristic claims 10
actions are needed (the two arguments share a stack, and the objects
above the box are counted both in the target clearing term and in the
goal clearing term), but an eight-edge path of `WorldStateGraph`
reaches a node satisfying `isGoal`, so the cheapest goal cost is at
most 8 < 10. -/
theorem heuristic_overestimates_optimal_cost :
    heuristic overcountStart overcountGoal overcountObjects = 10 ∧
    edgePath overcountObjects overcountPath = true ∧
    overcountPath.head? = some overcountStart ∧
    overcountPath.length = 9 ∧
    overcountPath.getLast? =
      some { holding := none, stacks' := [["b", "a"], ["x", "c"], []] } ∧
    isGoal { holding := none, stacks' := [["b", "a"], ["x", "c"], []] }
      overcountGoal overcountObjects = true := by
  refine ⟨by decide, by decide, by decide, by decide, by decide, by decide⟩

/-- All identifier occurrences of a search node: the holding slot
followed by the contents of every stack. -/
def allIdentifiers (node : WorldStateNode) : List String :=
  (match node.holding with | some h => [h] | none => []) ++ node.stacks'.flatten

/-- Replacing the `i`-th stack changes the flattened occurrence count
exactly by the difference between the old and the new stack. -/
theorem count_flatten_set (x : String) (l : List (List String)) :
    ∀ (i : Nat) (t : List String), i < l.length →
      ((l.set i t).flatten.count x + (l.getD i []).count x =
        l.flatten.count x + t.count x) := by
  induction l with
  | nil => intro i t h; simp at h
  | cons s rest ih =>
    intro i t h
    cases i with
    | zero =>
      simp [List.count_append]
      omega
    | succ j =>
      have hrec := ih j t (by simpa using h)
      have hs : ((s :: rest).set (j + 1) t) = s :: rest.set j t := rfl
      rw [hs]
      simp only [List.flatten_cons, List.count_append, List.getD_cons_succ]
      omega

/-- Every successor produced by `outgoingEdges` carries exactly the same
multiset of identifiers as its source node: a pick moves the top of one
stack into the holding slot, a drop moves the held object onto one
stack. -/
theorem outgoingEdges_count_preserved (objects : String → ObjectDefinition)
    (node : WorldStateNode) (e : Edge) (he : e ∈ outgoingEdges objects node)
    (x : String) :
    (allIdentifiers e.toNode).count x = (allIdentifiers node).count x := by
  rcases node with ⟨holding, stks⟩
  cases holding with
  | none =>
    simp only [outgoingEdges] at he
    rw [List.mem_filterMap] at he
    obtain ⟨i, hi, hf⟩ := he
    have hi' : i < stks.length := by simpa using hi
    rcases hlast : (stks.getD i []).getLast? with _ | obj
    · rw [hlast] at hf; simp at hf
    · rw [hlast] at hf
      simp only [Option.some.injEq] at hf
      subst hf
      have hdecomp : ((stks.getD i []).dropLast).count x + [obj].count x =
          (stks.getD i []).count x := by
        conv_rhs => rw [← List.dropLast_append_getLast? obj hlast]
        rw [List.count_append]
      have hset := count_flatten_set x stks i ((stks.getD i []).dropLast) hi'
      simp only [allIdentifiers, List.count_append, List.count_nil]
      omega
  | some held =>
    simp only [outgoingEdges] at he
    rw [List.mem_filterMap] at he
    obtain ⟨i, hi, hf⟩ := he
    have hi' : i < stks.length := by simpa using hi
    by_cases hcond : ((stks.getD i []).length != 0 &&
        !(isStackingAllowedByPhysics (objects held)
          (objects ((stks.getD i []).getLastD "")))) = true
    · rw [if_pos hcond] at hf; simp at hf
    · rw [if_neg hcond] at hf
      simp only [Option.some.injEq] at hf
      subst hf
      have hset := count_flatten_set x stks i (stks.getD i [] ++ [held]) hi'
      simp only [List.count_append] at hset
      simp only [allIdentifiers, List.count_append, List.count_nil]
      omega

/-- C8: if every identifier occurs at most once across the stacks and
the holding slot of a node, the same holds for every successor produced
by `WorldStateGraph.outgoingEdges`. -/
theorem outgoingEdges_preserve_identifier_invariant
    (objects : String → ObjectDefinition) (node : WorldStateNode)
    (hinv : (allIdentifiers node).Nodup) :
    ∀ e ∈ outgoingEdges objects node, (allIdentifiers e.toNode).Nodup := by
  intro e he
  rw [List.nodup_iff_count_le_one] at hinv ⊢
  intro a
  rw [outgoingEdges_count_preserved objects node e he a]
  exact hinv a

/-- A world where every identifier denotes a small red brick. -/
def brickObjects : String → ObjectDefinition :=
  fun _ => { form := "brick", size := some "small", color := some "red" }

/-- Witness for C8: picking `a` from the two-stack node `[[a], [b]]`
yields a successor that still satisfies the at-most-once invariant. -/
theorem outgoingEdges_preserve_identifier_invariant_witness :
    (allIdentifiers { holding := none, stacks' := [["a"], ["b"]] }).Nodup ∧
    (allIdentifiers { holding := some "a", stacks' := [[], ["b"]] }).Nodup := by
  refine ⟨by decide, ?_⟩
  have h := outgoingEdges_preserve_identifier_invariant brickObjects
    { holding := none, stacks' := [["a"], ["b"]] } (by decide)
    { fromNode := { holding := none, stacks' := [["a"], ["b"]] }
      toNode := { holding := some "a", stacks' := [[], ["b"]] }
      cost := 1 } (by decide)
  exact h

/-- The error/success accumulation of `interpret`, characterised by two
`filterMap` projections over the parse list. -/
theorem interpret_foldl_characterization (currentState : WorldState) :
    ∀ (parses : List Command) (es : List String)
      (ks : List (Command × DNFFormula)),
      parses.foldl (fun acc parseresult =>
        match interpretCommand parseresult currentState with
        | .ok interp => (acc.1, acc.2 ++ [(parseresult, interp)])
        | .error err => (acc.1 ++ [err], acc.2)) (es, ks) =
      (es ++ parses.filterMap (fun p =>
          match interpretCommand p currentState with
          | .ok _ => none
          | .error e => some e),
       ks ++ parses.filterMap (fun p =>
          match interpretCommand p currentState with
          | .ok i => some (p, i)
          | .error _ => none)) := by
  intro parses
  induction parses with
  | nil => intro es ks; simp
  | cons p ps ih =>
    intro es ks
    simp only [List.foldl_cons, List.filterMap_cons]
    cases h : interpretCommand p currentState with
    | ok i => simp [h, ih]
    | error e => simp [h, ih]

/-- The error/success accumulation of `plan`, characterised the same
way. -/
theorem plan_foldl_characterization
    (planInterpretationFn : DNFFormula → WorldState → Except String (List String))
    (currentState : WorldState) :
    ∀ (interps : List (Command × DNFFormula)) (es : List String)
      (ks : List ((Command × DNFFormula) × List String)),
      interps.foldl (fun acc interpretation =>
        match planInterpretationFn interpretation.2 currentState with
        | .ok p =>
          (acc.1, acc.2 ++ [(interpretation,
            if p.length == 0 then ["That is already true!"] else p)])
        | .error err => (acc.1 ++ [err], acc.2)) (es, ks) =
      (es ++ interps.filterMap (fun i =>
          match planInterpretationFn i.2 currentState with
          | .ok _ => none
          | .error e => some e),
       ks ++ interps.filterMap (fun i =>
          match planInterpretationFn i.2 currentState with
          | .ok p => some (i, if p.length == 0 then ["That is already true!"] else p)
          | .error _ => none)) := by
  intro interps
  induction interps with
  | nil => intro es ks; simp
  | cons i is ih =>
    intro es ks
    simp only [List.foldl_cons, List.filterMap_cons]
    cases h : planInterpretationFn i.2 currentState with
    | ok p =>
      simp only [h]
      rw [ih]
      simp
    | error e =>
      simp only [h]
      rw [ih]
      simp

/-- C7: `interpret` returns the list of successfully interpreted parses
whenever at least one parse interprets without error, suppressing the
errors of the failing parses; only when every parse fails does it throw,
and then it throws the first error raised.  `plan` applies the identical
policy from interpretations to plans (with a successful empty plan
replaced by the `"That is already true!"` narration). -/
theorem interpret_and_plan_error_policy :
    (∀ (parses : List Command) (currentState : WorldState),
      interpret parses currentState =
        (if (parses.filterMap (fun p =>
              match interpretCommand p currentState with
              | .ok i => some (p, i)
              | .error _ => none)).isEmpty then
          Except.error (parses.filterMap (fun p =>
              match interpretCommand p currentState with
              | .ok _ => none
              | .error e => some e)).head?
        else Except.ok (parses.filterMap (fun p =>
              match interpretCommand p currentState with
              | .ok i => some (p, i)
              | .error _ => none))))
    ∧ (∀ (planInterpretationFn : DNFFormula → WorldState → Except String (List String))
        (interps : List (Command × DNFFormula)) (currentState : WorldState),
      plan planInterpretationFn interps currentState =
        (if (interps.filterMap (fun i =>
              match planInterpretationFn i.2 currentState with
              | .ok p => some (i, if p.length == 0 then ["That is already true!"] else p)
              | .error _ => none)).isEmpty then
          Except.error (interps.filterMap (fun i =>
              match planInterpretationFn i.2 currentState with
              | .ok _ => none
              | .error e => some e)).head?
        else Except.ok (interps.filterMap (fun i =>
              match planInterpretationFn i.2 currentState with
              | .ok p => some (i, if p.length == 0 then ["That is already true!"] else p)
              | .error _ => none)))) := by
  constructor
  · intro parses currentState
    unfold interpret
    rw [interpret_foldl_characterization currentState parses [] []]
    simp only [List.nil_append]
    rcases hoks : parses.filterMap (fun p =>
        match interpretCommand p currentState with
        | .ok i => some (p, i)
        | .error _ => none) with _ | ⟨k, ks⟩
    · rfl
    · rfl
  · intro planInterpretationFn interps currentState
    unfold plan
    rw [plan_foldl_characterization planInterpretationFn currentState interps [] []]
    simp only [List.nil_append]
    rcases hoks : interps.filterMap (fun i =>
        match planInterpretationFn i.2 currentState with
        | .ok p => some (i, if p.length == 0 then ["That is already true!"] else p)
        | .error _ => none) with _ | ⟨k, ks⟩
    · rw [hoks]; rfl
    · rw [hoks]; rfl

/-- The pairs the both-sides-`all` case actually considers: the cross
product of the two candidate lists, minus the pairs whose two names
resolve to the same object record. -/
def bothAllPairs (existingObjects : ObjectDict) (mains goals : List String) :
    List (String × String) :=
  mains.flatMap (fun t => goals.filterMap (fun g =>
    if dictLookup existingObjects t != dictLookup existingObjects g then
      some (t, g)
    else none))

/-- Feasibility of one pair as checked by the both-sides-`all` case. -/
def bothAllPairFeasible (existingObjects : ObjectDict) (relation : String)
    (p : String × String) : Bool :=
  match dictLookup existingObjects p.1 with
  | some tObj => isValidGoalLocation tObj relation (dictLookup existingObjects p.2) none
  | none => false

/-- The amended specification of the both-sides-`all` case of
`generateAllDNF`: one conjunction with one literal per differing pair
of the cross product when every such pair is feasible (post-filtered
for `ontop`/`inside`), and the empty DNF as soon as one differing pair
is infeasible. -/
def bothAllSpec (existingObjects : ObjectDict) (relation : String)
    (mains goals : List String) : DNFFormula :=
  let pairs := bothAllPairs existingObjects mains goals
  if pairs.all (bothAllPairFeasible existingObjects relation) then
    (if relation == "ontop" || relation == "inside" then
      filterInvalidConjunction
        [pairs.map (fun p => createLiteral relation [p.1, p.2])]
    else [pairs.map (fun p => createLiteral relation [p.1, p.2])])
  else []


/-- Unfolding equation of the inner goal loop. -/
theorem bothAllInnerLoop_cons (E : ObjectDict) (R T g : String) (gs : List String) :
    bothAllInnerLoop E R T (g :: gs) =
      (if dictLookup E T != dictLookup E g then
        match dictLookup E T with
        | some tObj =>
          if !(isValidGoalLocation tObj R (dictLookup E g) none) then none
          else (bothAllInnerLoop E R T gs).map (fun r => createLiteral R [T, g] :: r)
        | none => none
      else bothAllInnerLoop E R T gs) := rfl

/-- When every differing pair with this target is feasible, the inner
loop collects exactly one literal per differing pair. -/
theorem bothAllInnerLoop_ok (E : ObjectDict) (R T : String)
    (goals : List String)
    (hall : ∀ g ∈ goals, (dictLookup E T != dictLookup E g) = true →
      bothAllPairFeasible E R (T, g) = true) :
    bothAllInnerLoop E R T goals =
      some ((goals.filterMap (fun g =>
        if dictLookup E T != dictLookup E g then some (T, g) else none)).map
        (fun p => createLiteral R [p.1, p.2])) := by
  induction goals with
  | nil => rfl
  | cons g gs ih =>
    have hrec := ih (fun x hx h => hall x (List.mem_cons_of_mem g hx) h)
    rw [bothAllInnerLoop_cons, List.filterMap_cons]
    by_cases hne : (dictLookup E T != dictLookup E g) = true
    · have hfeas := hall g (List.mem_cons_self g gs) hne
      rcases hlt : dictLookup E T with _ | tObj
      · exfalso
        simp [bothAllPairFeasible, hlt] at hfeas
      · have hv : isValidGoalLocation tObj R (dictLookup E g) none = true := by
        -- indentunder
          simpa [bothAllPairFeasible, hlt] using hfeas
        rw [hlt] at hne hrec
        rw [if_pos hne]
        rw [if_pos hne]
        simp [hv, hrec]
    · rw [if_neg hne, if_neg hne, hrec]

/-- As soon as one differing pair with this target is infeasible, the
inner loop aborts. -/
theorem bothAllInnerLoop_abort (E : ObjectDict) (R T : String) (goals : List String)
    (hex : ∃ g ∈ goals, (dictLookup E T != dictLookup E g) = true ∧
      bothAllPairFeasible E R (T, g) = false) :
    bothAllInnerLoop E R T goals = none := by
  induction goals with
  | nil => simp at hex
  | cons g gs ih =>
    rw [bothAllInnerLoop_cons]
    rcases hex with ⟨w, hw, hwne, hwf⟩
    rcases List.mem_cons.mp hw with rfl | hwgs
    · rw [if_pos hwne]
      rcases hlt : dictLookup E T with _ | tObj
      · rfl
      · have hv : isValidGoalLocation tObj R (dictLookup E w) none = false := by
          simpa [bothAllPairFeasible, hlt] using hwf
        simp [hv]
    · by_cases hne : (dictLookup E T != dictLookup E g) = true
      · rw [if_pos hne]
        have hrec := ih ⟨w, hwgs, hwne, hwf⟩
        rcases hlt : dictLookup E T with _ | tObj
        · rfl
        · simp [hrec]
      · rw [if_neg hne]
        exact ih ⟨w, hwgs, hwne, hwf⟩

/-- Unfolding equation of the outer target loop. -/
theorem bothAllOuterLoop_cons (E : ObjectDict) (R : String) (goals : List String)
    (t : String) (ts : List String) :
    bothAllOuterLoop E R goals (t :: ts) =
      (match bothAllInnerLoop E R t goals with
       | none => none
       | some c1 => (bothAllOuterLoop E R goals ts).map (fun c2 => c1 ++ c2)) := rfl

/-- When every differing pair of the cross product is feasible, the
both-sides-`all` loop builds the full conjunction. -/
theorem bothAllOuterLoop_ok (E : ObjectDict) (R : String) (goals : List String)
    (mains : List String)
    (hall : ∀ p ∈ bothAllPairs E mains goals, bothAllPairFeasible E R p = true) :
    bothAllOuterLoop E R goals mains =
      some ((bothAllPairs E mains goals).map (fun p => createLiteral R [p.1, p.2])) := by
  induction mains with
  | nil => rfl
  | cons t ts ih =>
    have hin := bothAllInnerLoop_ok E R t goals (fun g hg hne =>
      hall (t, g) (by
        simp only [bothAllPairs, List.flatMap_cons, List.mem_append]
        exact Or.inl (List.mem_filterMap.mpr ⟨g, hg, by rw [if_pos hne]⟩)))
    have hrest := ih (fun p hp =>
      hall p (by
        simp only [bothAllPairs, List.flatMap_cons, List.mem_append]
        right
        simpa [bothAllPairs] using hp))
    rw [bothAllOuterLoop_cons, hin, hrest]
    simp [bothAllPairs, List.flatMap_cons]

/-- As soon as one differing pair of the cross product is infeasible,
the both-sides-`all` loop aborts (the source returns the empty DNF). -/
theorem bothAllOuterLoop_abort (E : ObjectDict) (R : String) (goals : List String)
    (mains : List String)
    (hex : ∃ p ∈ bothAllPairs E mains goals, bothAllPairFeasible E R p = false) :
    bothAllOuterLoop E R goals mains = none := by
  induction mains with
  | nil => simp [bothAllPairs] at hex
  | cons t ts ih =>
    rw [bothAllOuterLoop_cons]
    rcases hex with ⟨p, hp, hpf⟩
    have hsplit : p ∈ (goals.filterMap (fun g =>
        if dictLookup E t != dictLookup E g then some (t, g) else none)) ∨
        p ∈ bothAllPairs E ts goals := by
      simpa [bothAllPairs, List.flatMap_cons, List.mem_append] using hp
    rcases hsplit with hpt | hpts
    · obtain ⟨g, hg, hfg⟩ := List.mem_filterMap.mp hpt
      by_cases hne : (dictLookup E t != dictLookup E g) = true
      · rw [if_pos hne] at hfg
        obtain rfl : p = (t, g) := by
          have := hfg
          injection this with h
          exact h.symm
        have habort := bothAllInnerLoop_abort E R t goals ⟨g, hg, hne, hpf⟩
        rw [habort]
      · rw [if_neg hne] at hfg
        exact absurd hfg (by simp)
    · have hrec := ih ⟨p, hpts, hpf⟩
      rcases hinner : bothAllInnerLoop E R t goals with _ | c1
      · rfl
      · simp [hrec]


/-- C4, amended: for a binary-relation `move`/`put` command with `all`
on both sides, `generateAllDNF` returns one conjunction containing
`rel(t, g)` for every pair of the cross product whose two names resolve
to distinct objects (not the full cross product), post-filtered for
`ontop`/`inside` by the duplicate-argument filter; it returns the empty
DNF as soon as one such differing pair fails `isValidGoalLocation`. -/
theorem generateAllDNF_bothAll_characterization (cmd : Command) (loc : PLocation)
    (main goals : Candidates) (bsc : Option Candidates) (existing : ObjectDict)
    (hcmd : cmd.command = "move" ∨ cmd.command = "put")
    (hloc : cmd.location = some loc)
    (hent : ∃ e, cmd.entity = some e ∧ e.quantifier = "all")
    (hgq : loc.entity.quantifier = "all")
    (hrel : loc.relation = "leftof" ∨ loc.relation = "rightof" ∨
      loc.relation = "beside" ∨ loc.relation = "above" ∨ loc.relation = "under" ∨
      loc.relation = "inside" ∨ loc.relation = "ontop") :
    generateAllDNF cmd main goals bsc existing =
      .ok (bothAllSpec existing loc.relation main.main goals.main) := by
  obtain ⟨e, he, heq⟩ := hent
  have hc1 : (cmd.command == "move" || cmd.command == "put") = true := by
    rcases hcmd with h | h <;> simp [h]
  have hrelcond : (loc.relation == "leftof" || loc.relation == "rightof" ||
      loc.relation == "beside" || loc.relation == "above" ||
      loc.relation == "under" || loc.relation == "inside" ||
      loc.relation == "ontop") = true := by
    rcases hrel with h | h | h | h | h | h | h <;> simp [h]
  have hMainAll : (match cmd.entity with
      | some e => e.quantifier == "all"
      | none => false) = true := by
    rw [he]; simp [heq]
  have hbody : generateAllDNF cmd main goals bsc existing =
      (match bothAllOuterLoop existing loc.relation goals.main main.main with
       | none => .ok []
       | some allConj =>
          .ok (if loc.relation == "ontop" || loc.relation == "inside" then
                filterInvalidConjunction [allConj]
              else [allConj])) := by
    rw [generateAllDNF.eq_def]
    rw [if_pos hc1, hloc]
    simp only [hMainAll, hgq]
    rw [if_pos hrelcond]
    rfl
  rw [hbody]
  by_cases hall : ∀ p ∈ bothAllPairs existing main.main goals.main,
      bothAllPairFeasible existing loc.relation p = true
  · rw [bothAllOuterLoop_ok existing loc.relation goals.main main.main hall]
    rw [bothAllSpec]
    rw [if_pos (List.all_eq_true.mpr hall)]
  · have hex : ∃ p ∈ bothAllPairs existing main.main goals.main,
        bothAllPairFeasible existing loc.relation p = false := by
      push_neg at hall
      obtain ⟨p, hp, hpf⟩ := hall
      exact ⟨p, hp, by simpa using hpf⟩
    rw [bothAllOuterLoop_abort existing loc.relation goals.main main.main hex]
    rw [bothAllSpec]
    rw [if_neg (by
      intro hcontra
      obtain ⟨p, hp, hpf⟩ := hex
      have := List.all_eq_true.mp hcontra p hp
      rw [this] at hpf
      simp at hpf)]

/-- A small white ball at the bottom of stack 1 (distinct from
`ballAtStack0`). -/
def ballAtStack1 : FoundObject :=
  { definition := { form := "ball", size := some "large", color := some "black" }
    held := false, stackId := 1, stackLocation := 0, floor := false }

/-- A `move all balls beside all balls` command: the same entity
description on both sides, so the candidate lists coincide. -/
def bothAllBesideCommand : Command :=
  { command := "move"
    entity := some (.mk "all" (.leaf none none "ball"))
    location := some (.mk "beside" (.mk "all" (.leaf none none "ball")) none) }

/-- The dictionary of the two balls plus the floor. -/
def twoBallsDict : ObjectDict :=
  [("a", ballAtStack0), ("b", ballAtStack1), ("floor", floorFoundObject)]

/-- C4, counterexample: with candidate lists `["a","b"]` on both sides,
the cross product contains the pair `(a, a)`, whose literal fails
`isValidGoalLocation`; by the claim the result should be the empty DNF
and should otherwise contain a literal for every cross-product pair.
Instead the equal-object pairs are silently skipped and a non-empty
two-literal conjunction is returned. -/
theorem generateAllDNF_bothAll_counterexample :
    generateAllDNF bothAllBesideCommand (.mk ["a", "b"] none none none)
      (.mk ["a", "b"] none none none) none twoBallsDict =
      .ok [[createLiteral "beside" ["a", "b"], createLiteral "beside" ["b", "a"]]] ∧
    dictLookup twoBallsDict "a" = some ballAtStack0 ∧
    isValidGoalLocation ballAtStack0 "beside" (some ballAtStack0) none = false := by
  refine ⟨rfl, by decide, by decide⟩

/-- Witness for the amended C4 theorem at the two-ball world. -/
theorem generateAllDNF_bothAll_characterization_witness :
    generateAllDNF bothAllBesideCommand (.mk ["a", "b"] none none none)
      (.mk ["a", "b"] none none none) none twoBallsDict =
      .ok (bothAllSpec twoBallsDict "beside" ["a", "b"] ["a", "b"]) :=
  generateAllDNF_bothAll_characterization bothAllBesideCommand
    (.mk "beside" (.mk "all" (.leaf none none "ball")) none)
    (.mk ["a", "b"] none none none) (.mk ["a", "b"] none none none)
    none twoBallsDict (Or.inl rfl) rfl ⟨.mk "all" (.leaf none none "ball"), rfl, rfl⟩
    rfl (Or.inr (Or.inr (Or.inl rfl)))


/-- `getCombinations` with a negative bound: only the empty assignment
of length 0 exists. -/
theorem getCombinations_neg_one (n : Nat) :
    getCombinations n (-1) = if n = 0 then [[]] else [] := by
  cases n with
  | zero => rfl
  | succ f => rfl

/-- With no objects to assign to, the one-sided `all` builder produces
no conjunction. -/
theorem createOneSidedAllDNF_empty_targets (c1 : List String) (ex : ObjectDict)
    (rel : String) (inv : Bool) :
    createOneSidedAllDNF c1 [] ex rel inv = [] := by
  cases c1 with
  | nil => rfl
  | cons x xs => rfl

/-- Two-sided `between` builder with an empty not-`all` list: the
trivially-true conjunctionless DNF `[[]]` when the `all` product is
empty, nothing otherwise. -/
theorem createTwoSidedBetweenAllDNF_empty_notAll (g1 g2 : List String) :
    createTwoSidedBetweenAllDNF [[], g1, g2] 0 =
      if g1.length * g2.length = 0 then [[]] else [] := by
  simp [createTwoSidedBetweenAllDNF, getCombinations_neg_one]
  split <;> simp

/-- One-sided `between` builder (`all` on the first goal) when the
main list is empty. -/
theorem createOneSidedBetweenAllDNF_goal1_all (g1 g2 : List String) :
    createOneSidedBetweenAllDNF [[], g1, g2] 1 =
      if g1.length = 0 then [[]] else [] := by
  simp [createOneSidedBetweenAllDNF, getCombinations_neg_one]
  split <;> simp

/-- One-sided `between` builder (`all` on the second goal) when the
main list is empty. -/
theorem createOneSidedBetweenAllDNF_goal2_all (g1 g2 : List String) :
    createOneSidedBetweenAllDNF [[], g1, g2] 2 =
      if g2.length = 0 then [[]] else [] := by
  simp [createOneSidedBetweenAllDNF, getCombinations_neg_one]
  split <;> simp

/-- With no main candidate, `generateAnyDNF` for a `put` command emits
nothing. -/
theorem generateAnyDNF_put_empty_main (cmd : Command) (hput : cmd.command = "put")
    (gc : Candidates) (bsc : Option Candidates) (ex : ObjectDict) :
    generateAnyDNF cmd (.mk [] none none none) gc bsc ex = [] := by
  simp [generateAnyDNF, hput, Candidates.main]


/-- With no main candidate, `generateAllDNF` for a `put` command
returns either the empty DNF or — only for `between` — the
trivially-true DNF `[[]]`. -/
theorem generateAllDNF_put_empty_main (cmd : Command) (loc : PLocation)
    (gc : Candidates) (bsc : Option Candidates) (ex : ObjectDict)
    (hput : cmd.command = "put") (hent : cmd.entity = none)
    (hloc : cmd.location = some loc) :
    generateAllDNF cmd (.mk [] none none none) gc bsc ex = .ok [] ∨
    (loc.relation = "between" ∧
      generateAllDNF cmd (.mk [] none none none) gc bsc ex = .ok [[]]) := by
  have hc1 : (cmd.command == "move" || cmd.command == "put") = true := by simp [hput]
  rw [generateAllDNF.eq_def]
  rw [if_pos hc1, hloc]
  have hmain : (Candidates.mk [] none none none).main = ([] : List String) := rfl
  simp only [hent, hmain]
  by_cases hb : (loc.relation == "leftof" || loc.relation == "rightof" ||
      loc.relation == "beside" || loc.relation == "above" ||
      loc.relation == "under" || loc.relation == "inside" ||
      loc.relation == "ontop") = true
  · rw [if_pos hb]
    left
    simp only [Bool.false_and, Bool.false_eq_true, if_false, hmain]
    rw [createOneSidedAllDNF_empty_targets]
    split <;> rfl
  · rw [if_neg hb]
    by_cases hbet : (loc.relation == "between") = true
    · rw [if_pos hbet]
      have hbet' : loc.relation = "between" := by simpa using hbet
      simp only [Bool.false_and, Bool.false_eq_true, if_false, hmain]
      by_cases hg : (loc.entity.quantifier == "all") = true
      · by_cases hg2 : (match loc.entity2 with
            | some e2 => e2.quantifier == "all"
            | none => false) = true
        · rw [if_pos (by simp [hg, hg2])]
          rw [createTwoSidedBetweenAllDNF_empty_notAll]
          by_cases hp : gc.main.length *
              ((Option.map Candidates.main bsc).getD []).length = 0
          · right
            exact ⟨hbet', by rw [if_pos hp]⟩
          · left
            rw [if_neg hp]
        · rw [if_neg (by simp [hg2]), if_pos (by simp [hg, hg2])]
          rw [createOneSidedBetweenAllDNF_goal1_all]
          by_cases hp : gc.main.length = 0
          · right
            exact ⟨hbet', by rw [if_pos hp]⟩
          · left
            rw [if_neg hp]
      · by_cases hg2 : (match loc.entity2 with
            | some e2 => e2.quantifier == "all"
            | none => false) = true
        · rw [if_neg (by simp [hg]), if_neg (by simp [hg]),
            if_pos (by simp [hg, hg2])]
          rw [createOneSidedBetweenAllDNF_goal2_all]
          by_cases hp : ((Option.map Candidates.main bsc).getD []).length = 0
          · right
            exact ⟨hbet', by rw [if_pos hp]⟩
          · left
            rw [if_neg hp]
        · rw [if_neg (by simp [hg]), if_neg (by simp [hg]), if_neg (by simp [hg2])]
          left
          rfl
    · rw [if_neg hbet]
      left
      rfl

/-- C10, amended: a `put` command interpreted while nothing is held
throws `\"Sentence has no valid interpretation in world\"` — except
that when the location relation is `between` and an `all`-quantified
location entity has an empty candidate enumeration, the trivially-true
DNF `[[ ]]` (one empty conjunction) is returned instead of the
error. -/
theorem interpretCommand_put_nothing_held (cmd : Command) (state : WorldState)
    (hput : cmd.command = "put") (hent : cmd.entity = none)
    (hhold : state.holding = none) :
    interpretCommand cmd state =
      .error "Sentence has no valid interpretation in world" ∨
    (∃ loc, cmd.location = some loc ∧ loc.relation = "between" ∧
      interpretCommand cmd state = .ok [[]]) := by
  rcases hcl : cmd.location with _ | loc
  · left
    rw [interpretCommand.eq_def]
    simp only [hput, hent, hhold, hcl, bne_self_eq_false, Bool.false_eq_true, if_false,
      generateAnyDNF_put_empty_main cmd hput]
    rfl
  · rw [interpretCommand.eq_def]
    simp only [hput, hent, hhold, hcl, bne_self_eq_false, Bool.false_eq_true, if_false,
      generateAnyDNF_put_empty_main cmd hput]
    by_cases hq : (true && loc.entity.quantifier != "all" &&
        match loc.entity2 with
        | some e2 => e2.quantifier != "all"
        | none => true) = true
    · left
      rw [if_pos hq]
      rfl
    · rw [if_neg hq]
      have hgall := generateAllDNF_put_empty_main cmd loc
        ((some (filterCandidate loc.entity (filterExistingObjects state))).getD
          emptyCandidates)
        (if (loc.relation == "between") = true then
          match loc.entity2 with
          | some e2 => some (filterCandidate e2 (filterExistingObjects state))
          | none => none
        else none)
        (filterExistingObjects state) hput hent hcl
      rcases hgall with hok | ⟨hbet, hok⟩
      · left
        rw [hok]
        rfl
      · right
        refine ⟨loc, rfl, hbet, ?_⟩
        rw [hok]
        simp [hbet]
        rfl

/-- A `put … between all bricks and a ball` command; the world below
holds no brick, so the `all`-quantified goal list is empty. -/
def putBetweenAllCommand : Command :=
  { command := "put"
    entity := none
    location := some (.mk "between"
      (.mk "all" (.leaf none none "brick"))
      (some (.mk "any" (.leaf none none "ball")))) }

/-- A world with a single white ball on one stack and nothing held. -/
def singleBallWorld : WorldState :=
  { stacks' := [["a"]]
    holding := none
    arm := 0
    objects := [("a", { form := "ball", size := some "small", color := some "white" })] }

/-- A `put … ontop all bricks` command for the same world. -/
def putOntopAllCommand : Command :=
  { command := "put"
    entity := none
    location := some (.mk "ontop" (.mk "all" (.leaf none none "brick")) none) }

/-- C10, counterexample: a `put` command in a world whose holding field
is null does not always throw `"Sentence has no valid interpretation in
world"`: with a `between` location whose `all`-quantified entity matches
nothing, `interpretCommand` returns the trivially-true DNF `[[ ]]`
without any error. -/
theorem interpretCommand_put_between_counterexample :
    singleBallWorld.holding = none ∧
    interpretCommand putBetweenAllCommand singleBallWorld = .ok [[]] :=
  ⟨rfl, rfl⟩

/-- Witness for the amended C10 theorem at a concrete non-`between`
command, where the error is thrown. -/
theorem interpretCommand_put_nothing_held_witness :
    interpretCommand putOntopAllCommand singleBallWorld =
      .error "Sentence has no valid interpretation in world" ∨
    (∃ loc, putOntopAllCommand.location = some loc ∧ loc.relation = "between" ∧
      interpretCommand putOntopAllCommand singleBallWorld = .ok [[]]) :=
  interpretCommand_put_nothing_held putOntopAllCommand singleBallWorld rfl rfl rfl

end Shrdlite
